import Mathlib

/-!
Verification of the AI document orchestrator (src/app.py) against its
specification.

Python strings are modeled as `List Char`, byte strings as `List Nat`.
External collaborators are modeled as explicit inputs or oracle
functions supplied to the embedded code:
  * `bytes.decode("utf-8")`  — an oracle `List Nat → Except (List Char) (List Char)`
    (success gives the decoded text, error gives the exception message);
  * `pdfplumber` page texts  — an oracle `List Nat → List (Option (List Char))`
    (one `Option` per page, `none` when `page.extract_text()` returns `None`);
  * the Gemini call           — its outcome `Except (List Char) (Option (List Char))`
    (error = raised exception message, `Option` = `response.text`);
  * `requests.post`           — its outcome `Except (List Char) HttpResponse`
    (error = raised transport exception message).
Fallible Python code is embedded in `Except`: an uncaught exception is an
`Except.error` result that propagates to the embedded caller.
-/

namespace DocOrch

/-- The backtick character (code point 96). -/
def btChar : Char := Char.ofNat 96

/-- The literal pattern written as three backticks in app.py line 94. -/
def fence3 : List Char := [btChar, btChar, btChar]

/-- The literal pattern of app.py line 92: three backticks then `json`. -/
def fenceJson : List Char := fence3 ++ "json".data

/-- The literal pattern of app.py line 93: three backticks then `JSON`. -/
def fenceJSON : List Char := fence3 ++ "JSON".data

/-- Python `str.strip()`: drop whitespace from both ends. -/
def pyStrip (s : List Char) : List Char :=
  ((s.dropWhile Char.isWhitespace).reverse.dropWhile Char.isWhitespace).reverse

/-- Python `str.replace(pat, rep)` for a non-empty `pat`: scan left to
right, replacing each non-overlapping occurrence of `pat` by `rep` and
resuming the scan after the replaced occurrence.  (The guard `pat ≠ []`
only makes the recursion total; every call site uses a non-empty
pattern, matching CPython's behavior there.) -/
def pyReplace (pat rep : List Char) : List Char → List Char
  | [] => []
  | c :: rest =>
    if h : pat.isPrefixOf (c :: rest) ∧ pat ≠ [] then
      rep ++ pyReplace pat rep ((c :: rest).drop pat.length)
    else
      c :: pyReplace pat rep rest
termination_by s => s.length
decreasing_by
  · simp only [List.length_drop, List.length_cons]
    have hp : 0 < pat.length := List.length_pos.mpr h.2
    omega
  · simp only [List.length_cons]
    omega

/-- Occurrence test: does `pat` occur as a contiguous substring of `s`?
(Used only in proofs, to reason about `pyReplace`.) -/
def occurs (pat : List Char) : List Char → Bool
  | [] => pat.isEmpty
  | c :: rest => pat.isPrefixOf (c :: rest) || occurs pat rest

/-- Number of leading backticks of a string (proof-side measure). -/
def leadTicks (s : List Char) : Nat :=
  (s.takeWhile (fun c => c == btChar)).length

/-- The fence-stripping normalization of app.py lines 91-96: remove the
substrings three-backticks-`json`, three-backticks-`JSON`, then three
backticks, each by Python `str.replace(·, "")`, then `str.strip()`. -/
def stripAndTrim (s : List Char) : List Char :=
  pyStrip (pyReplace fence3 [] (pyReplace fenceJSON [] (pyReplace fenceJson [] s)))

/-! ### Proof-side lemmas about the string primitives -/

theorem occurs_append_right (pat s t : List Char) (h : occurs pat s = true) :
    occurs pat (s ++ t) = true := by
  induction s with
  | nil =>
    simp only [occurs, List.isEmpty_iff] at h
    subst h
    cases t with
    | nil => simp [occurs]
    | cons c r => simp [occurs, List.isPrefixOf]
  | cons c r ih =>
    simp only [occurs, Bool.or_eq_true] at h ⊢
    rcases h with h | h
    · left
      rw [List.isPrefixOf_iff_prefix] at h ⊢
      exact h.trans (List.prefix_append _ _)
    · right
      exact ih h

theorem occurs_append_left (pat s t : List Char) (h : occurs pat s = true) :
    occurs pat (t ++ s) = true := by
  induction t with
  | nil => simpa using h
  | cons c r ih =>
    simp only [List.cons_append, occurs, Bool.or_eq_true]
    right
    exact ih

theorem occurs_of_prefix {pat s m : List Char} (hp : s <+: m)
    (h : occurs pat s = true) : occurs pat m = true := by
  rcases hp with ⟨t, rfl⟩
  exact occurs_append_right pat s t h

theorem occurs_of_suffix {pat s m : List Char} (hp : s <:+ m)
    (h : occurs pat s = true) : occurs pat m = true := by
  rcases hp with ⟨t, rfl⟩
  exact occurs_append_left pat s t h

theorem occurs_mono_pat {p q : List Char} (hpq : p.isPrefixOf q = true) :
    ∀ s : List Char, occurs q s = true → occurs p s = true := by
  intro s h
  induction s with
  | nil =>
    simp only [occurs, List.isEmpty_iff] at h ⊢
    subst h
    rw [List.isPrefixOf_iff_prefix, List.prefix_nil] at hpq
    exact hpq
  | cons c r ih =>
    simp only [occurs, Bool.or_eq_true] at h ⊢
    rcases h with h | h
    · left
      rw [List.isPrefixOf_iff_prefix] at hpq h ⊢
      exact hpq.trans h
    · right
      exact ih h

theorem pyReplace_of_not_occurs (pat rep : List Char) :
    ∀ s : List Char, occurs pat s = false → pyReplace pat rep s = s := by
  intro s
  induction s using pyReplace.induct pat rep with
  | case1 => intro _; simp [pyReplace]
  | case2 c rest h ih =>
    intro hocc
    simp only [occurs, Bool.or_eq_false_iff] at hocc
    rw [hocc.1] at h
    exact absurd h (by simp)
  | case3 c rest h ih =>
    intro hocc
    simp only [occurs, Bool.or_eq_false_iff] at hocc
    rw [pyReplace]
    rw [dif_neg h, ih hocc.2]

theorem leadTicks_cons (c : Char) (l : List Char) :
    leadTicks (c :: l) = if c = btChar then leadTicks l + 1 else 0 := by
  by_cases h : c = btChar
  · simp [leadTicks, List.takeWhile_cons, h]
  · simp [leadTicks, List.takeWhile_cons, h]

theorem fence3_isPrefixOf_iff (l : List Char) :
    fence3.isPrefixOf l = true ↔ 3 ≤ leadTicks l := by
  match l with
  | [] => simp [fence3, List.isPrefixOf, leadTicks]
  | [a] =>
    simp only [fence3, List.isPrefixOf, Bool.and_eq_true, beq_iff_eq]
    rw [leadTicks_cons]
    by_cases h : a = btChar <;> simp [h, leadTicks, eq_comm]
  | [a, b] =>
    simp only [fence3, List.isPrefixOf, Bool.and_eq_true, beq_iff_eq]
    rw [leadTicks_cons, leadTicks_cons]
    by_cases h : a = btChar <;> by_cases h2 : b = btChar <;> simp [h, h2, leadTicks, eq_comm]
  | a :: b :: c :: r =>
    simp only [fence3, List.isPrefixOf, Bool.and_eq_true, beq_iff_eq]
    rw [leadTicks_cons, leadTicks_cons, leadTicks_cons]
    by_cases h : a = btChar <;> by_cases h2 : b = btChar <;> by_cases h3 : c = btChar <;>
      simp [h, h2, h3, List.isPrefixOf, eq_comm]

theorem leadTicks_drop (n : Nat) (l : List Char) (h : n ≤ leadTicks l) :
    leadTicks (l.drop n) = leadTicks l - n := by
  induction n generalizing l with
  | zero => simp
  | succ m ih =>
    match l with
    | [] => simp [leadTicks] at h
    | c :: r =>
      rw [leadTicks_cons] at h ⊢
      by_cases hc : c = btChar
      · rw [if_pos hc] at h ⊢
        rw [List.drop_succ_cons, ih r (by omega)]
        omega
      · rw [if_neg hc] at h
        omega

/-- Invariant of the final three-backtick removal pass: its output has no
three-backtick occurrence left, and it has no more leading backticks than
its input. -/
theorem replace_fence3_spec (s : List Char) :
    occurs fence3 (pyReplace fence3 [] s) = false ∧
      leadTicks (pyReplace fence3 [] s) ≤ leadTicks s := by
  induction s using pyReplace.induct fence3 [] with
  | case1 => simp [pyReplace, occurs, fence3, leadTicks]
  | case2 c rest h ih =>
    rw [pyReplace, dif_pos h]
    simp only [List.nil_append]
    refine ⟨ih.1, ?_⟩
    have h3 : 3 ≤ leadTicks (c :: rest) := (fence3_isPrefixOf_iff _).mp h.1
    have hdrop : leadTicks ((c :: rest).drop fence3.length) = leadTicks (c :: rest) - 3 := by
      have : fence3.length = 3 := by decide
      rw [this]
      exact leadTicks_drop 3 _ h3
    have := ih.2
    omega
  | case3 c rest h ih =>
    rw [pyReplace, dif_neg h]
    have hnp : ¬ fence3.isPrefixOf (c :: rest) = true := by
      intro hp
      exact h ⟨hp, by decide⟩
    rw [fence3_isPrefixOf_iff] at hnp
    constructor
    · simp only [occurs, Bool.or_eq_false_iff]
      refine ⟨?_, ih.1⟩
      rw [Bool.eq_false_iff]
      intro hp
      rw [fence3_isPrefixOf_iff] at hp
      rw [leadTicks_cons] at hp hnp
      by_cases hc : c = btChar
      · rw [if_pos hc] at hp hnp
        have := ih.2
        omega
      · rw [if_neg hc] at hp
        omega
    · rw [leadTicks_cons, leadTicks_cons]
      by_cases hc : c = btChar
      · rw [if_pos hc, if_pos hc]
        have := ih.2
        omega
      · rw [if_neg hc, if_neg hc]

theorem dropWhile_dropWhile (p : Char → Bool) (l : List Char) :
    (l.dropWhile p).dropWhile p = l.dropWhile p := by
  induction l with
  | nil => rfl
  | cons c r ih =>
    by_cases h : p c
    · simp [List.dropWhile_cons, h, ih]
    · simp [List.dropWhile_cons, h]

theorem dropWhile_eq_self_of_prefix (p : Char → Bool) {l m : List Char}
    (hp : l <+: m) (hm : m.dropWhile p = m) : l.dropWhile p = l := by
  match l, m with
  | [], _ => rfl
  | a :: l', b :: m' =>
    have hab : a = b := by
      rcases hp with ⟨t, ht⟩
      simpa using congrArg (fun x => x.head?) ht
    subst hab
    by_cases h : p a
    · rw [List.dropWhile_cons_of_pos h] at hm
      have hle : (m'.dropWhile p).length ≤ m'.length :=
        (List.dropWhile_suffix p).sublist.length_le
      have := congrArg List.length hm
      simp at this
      omega
    · exact List.dropWhile_cons_of_neg h

theorem pyStrip_prefix_dropWhile (s : List Char) :
    pyStrip s <+: s.dropWhile Char.isWhitespace := by
  rw [← List.reverse_suffix]
  simp only [pyStrip, List.reverse_reverse]
  exact List.dropWhile_suffix _

theorem occurs_pyStrip {pat s : List Char}
    (h : occurs pat s = false) : occurs pat (pyStrip s) = false := by
  rw [Bool.eq_false_iff] at h ⊢
  intro hocc
  apply h
  apply occurs_of_suffix (List.dropWhile_suffix Char.isWhitespace)
  exact occurs_of_prefix (pyStrip_prefix_dropWhile s) hocc

theorem pyStrip_idem (s : List Char) : pyStrip (pyStrip s) = pyStrip s := by
  have h1 : (pyStrip s).dropWhile Char.isWhitespace = pyStrip s :=
    dropWhile_eq_self_of_prefix _ (pyStrip_prefix_dropWhile s)
      (dropWhile_dropWhile _ s)
  have h2 : (pyStrip s).reverse = (s.dropWhile Char.isWhitespace).reverse.dropWhile Char.isWhitespace := by
    simp [pyStrip]
  conv_lhs => rw [pyStrip, h1, h2, dropWhile_dropWhile]
  rw [← h2, List.reverse_reverse]

/-- No three-backtick occurrence survives `stripAndTrim`. -/
theorem stripAndTrim_no_fence3 (s : List Char) :
    occurs fence3 (stripAndTrim s) = false :=
  occurs_pyStrip (replace_fence3_spec _).1

/-- A string with no three-backtick occurrence is a fixed point of
`stripAndTrim`, provided it is already trimmed. -/
theorem stripAndTrim_fixed {s : List Char} (h3 : occurs fence3 s = false)
    (htrim : pyStrip s = s) : stripAndTrim s = s := by
  have hjson : occurs fenceJson s = false := by
    rw [Bool.eq_false_iff] at h3 ⊢
    intro h
    exact h3 (occurs_mono_pat (by decide) s h)
  have hJSON : occurs fenceJSON s = false := by
    rw [Bool.eq_false_iff] at h3 ⊢
    intro h
    exact h3 (occurs_mono_pat (by decide) s h)
  rw [stripAndTrim, pyReplace_of_not_occurs _ _ _ hjson,
    pyReplace_of_not_occurs _ _ _ hJSON, pyReplace_of_not_occurs _ _ _ h3, htrim]

/-! ### The embedded program (src/app.py) -/

/-- An uploaded file: a name and raw byte content. -/
structure UploadedFile where
  name : List Char
  content : List Nat

/-- The PDF branch of `extract_text_from_file` (app.py lines 29-33):
`full_text` starts empty and each page appends
`(page.extract_text() or "") + "\n"`. -/
def pdfText (pages : List (Option (List Char))) : List Char :=
  pages.foldl (fun acc p => acc ++ p.getD [] ++ ['\n']) []

/-- `extract_text_from_file` (app.py lines 23-35).  `decodeUtf8` embeds
`bytes.decode("utf-8")` (error = raised `UnicodeDecodeError` message),
`pdfExtract` embeds `pdfplumber`'s per-page `extract_text()` results. -/
def extract_text_from_file
    (decodeUtf8 : List Nat → Except (List Char) (List Char))
    (pdfExtract : List Nat → List (Option (List Char)))
    (f : UploadedFile) : Except (List Char) (List Char) :=
  if ".txt".data.isSuffixOf f.name then
    decodeUtf8 f.content
  else if ".pdf".data.isSuffixOf f.name then
    Except.ok (pdfText (pdfExtract f.content))
  else
    Except.ok []

/-- `extract_structured_data` (app.py lines 38-99), from the Gemini call
on: `apiResult` is the outcome of `client.models.generate_content`
(`Except.error` = the call raised, carrying the exception message;
`Except.ok t` = it returned a response whose `.text` is `t`).  The code
computes `raw = (response.text or "").strip()` and then the fence
stripping of lines 91-96; there is no `try`/`except` in the source, so a
raised exception propagates. -/
def extract_structured_data
    (apiResult : Except (List Char) (Option (List Char))) :
    Except (List Char) (List Char) :=
  match apiResult with
  | Except.error e => Except.error e
  | Except.ok t => Except.ok (stripAndTrim (pyStrip (t.getD [])))

/-- A parsed JSON value, as produced by `resp.json()`.  The program never
inspects it (it only hands it to `st.json`), but the AST is kept
concrete. -/
inductive Json where
  | null
  | bool (b : Bool)
  | num (n : Int)
  | str (s : List Char)
  | arr (elems : List Json)
  | obj (fields : List (List Char × Json))

/-- An HTTP response from `requests.post`: the status code, the body text
(`resp.text`), and the result of `resp.json()` (`none` when that parse
raises `json.JSONDecodeError`). -/
structure HttpResponse where
  status : Nat
  text : List Char
  jsonVal : Option Json

/-- What `send_to_n8n` displays on HTTP 200: the parsed JSON body via
`st.json`, or the raw body text via `st.write` when the parse failed. -/
inductive Displayed where
  | jsonView (j : Json)
  | textView (t : List Char)

/-- The reported outcome of `send_to_n8n`: the `st.success` branch, the
`st.error` branch for a non-200 status (carrying status and body), or the
`st.error` branch of the `except` handler (carrying the exception
message). -/
inductive DeliveryOutcome where
  | success (shown : Displayed)
  | httpFailure (status : Nat) (body : List Char)
  | transportFailure (msg : List Char)

/-- `send_to_n8n` (app.py lines 102-123). `postResult` is the outcome of
the single `requests.post` call (`Except.error` = the call raised,
carrying the exception message). -/
def send_to_n8n (postResult : Except (List Char) HttpResponse) :
    DeliveryOutcome :=
  match postResult with
  | Except.error e => DeliveryOutcome.transportFailure e
  | Except.ok resp =>
    if resp.status = 200 then
      match resp.jsonVal with
      | some j => DeliveryOutcome.success (Displayed.jsonView j)
      | none => DeliveryOutcome.success (Displayed.textView resp.text)
    else
      DeliveryOutcome.httpFailure resp.status resp.text

/-! ### The orchestration layer (`main`, app.py lines 130-218) -/

/-- The external services `main` can contact. -/
inductive ExtCall where
  | gemini
  | webhook
deriving DecidableEq

/-- The `st.error` message of app.py line 154. -/
def msgNoFile : List Char := "Please upload a document first.".data

/-- The `st.error` message of app.py line 157. -/
def msgNoQuestion : List Char := "Please enter a question.".data

/-- The `st.error` message of app.py line 164. -/
def msgNoText : List Char := "Could not extract any text from this document.".data

/-- The `st.error` message of app.py line 208. -/
def msgNoEmail : List Char := "Please enter a recipient email.".data

/-- The observable outcome of one click on "Run Gemini Extraction". -/
inductive ExtractOutcome where
  | rejected (msg : List Char)
  | decodeFailed (e : List Char)
  | noText (msg : List Char)
  | apiFailed (e : List Char)
  | completed (rawText structured : List Char)

/-- The "Run Gemini Extraction" handler (app.py lines 152-174): validate
inputs, extract the text, then call Gemini.  Returns the list of external
services contacted together with the outcome.  `api` embeds the Gemini
call made on the extracted text and question. -/
def extractClick
    (decodeUtf8 : List Nat → Except (List Char) (List Char))
    (pdfExtract : List Nat → List (Option (List Char)))
    (api : List Char → List Char → Except (List Char) (Option (List Char)))
    (uploadedFile : Option UploadedFile) (question : List Char) :
    List ExtCall × ExtractOutcome :=
  match uploadedFile with
  | none => ([], ExtractOutcome.rejected msgNoFile)
  | some f =>
    if pyStrip question = [] then
      ([], ExtractOutcome.rejected msgNoQuestion)
    else
      match extract_text_from_file decodeUtf8 pdfExtract f with
      | Except.error e => ([], ExtractOutcome.decodeFailed e)
      | Except.ok rawText =>
        if pyStrip rawText = [] then
          ([], ExtractOutcome.noText msgNoText)
        else
          match extract_structured_data (api rawText question) with
          | Except.error e => ([ExtCall.gemini], ExtractOutcome.apiFailed e)
          | Except.ok structured =>
            ([ExtCall.gemini], ExtractOutcome.completed rawText structured)

/-- The webhook payload of app.py lines 210-216. -/
structure AlertContext where
  question : List Char
  structured_data : Option (List Char)
  raw_text : Option (List Char)
  recipient_email : List Char

/-- The observable outcome of one click on "Send Alert Mail". -/
inductive SendOutcome where
  | rejected (msg : List Char)
  | delivered (outcome : DeliveryOutcome)

/-- The "Send Alert Mail" handler (app.py lines 206-218): validate the
recipient email, build the context, POST it once via `send_to_n8n`.
`post` embeds `requests.post` for the assembled context. -/
def sendClick
    (post : AlertContext → Except (List Char) HttpResponse)
    (stQuestion : List Char) (stStructured stRaw : Option (List Char))
    (recipient : List Char) : List ExtCall × SendOutcome :=
  if pyStrip recipient = [] then
    ([], SendOutcome.rejected msgNoEmail)
  else
    ([ExtCall.webhook],
      SendOutcome.delivered
        (send_to_n8n (post ⟨stQuestion, stStructured, stRaw, recipient⟩)))

/-! ### Helper lemmas about the embedded program -/

theorem pyReplace_nil (pat rep : List Char) : pyReplace pat rep [] = [] := by
  simp [pyReplace]

theorem pyReplace_head_match (pat rep t : List Char) (h : pat ≠ []) :
    pyReplace pat rep (pat ++ t) = rep ++ pyReplace pat rep t := by
  match pat with
  | [] => exact absurd rfl h
  | p :: ps =>
    rw [List.cons_append, pyReplace]
    rw [dif_pos ⟨List.isPrefixOf_iff_prefix.mpr ⟨t, by simp⟩, h⟩]
    congr 1
    have hd : List.drop (p :: ps).length (p :: (ps ++ t)) = t := by
      rw [List.length_cons, List.drop_succ_cons]
      simpa using List.drop_left ps t
    rw [hd]

theorem pyStrip_nil : pyStrip [] = [] := rfl

theorem pyStrip_of_all_whitespace {w : List Char}
    (h : ∀ c ∈ w, c.isWhitespace = true) : pyStrip w = [] := by
  have hd : w.dropWhile Char.isWhitespace = [] := by
    rw [List.dropWhile_eq_nil_iff]
    exact h
  simp [pyStrip, hd]

theorem stripAndTrim_nil : stripAndTrim [] = [] := by
  rw [stripAndTrim, pyReplace_nil, pyReplace_nil, pyReplace_nil, pyStrip_nil]

theorem stripAndTrim_fence3 : stripAndTrim fence3 = [] := by
  have h0 := pyReplace_head_match fence3 [] [] (by decide)
  rw [List.append_nil, List.nil_append, pyReplace_nil] at h0
  rw [stripAndTrim,
    pyReplace_of_not_occurs fenceJson [] fence3 (by decide),
    pyReplace_of_not_occurs fenceJSON [] fence3 (by decide),
    h0, pyStrip_nil]

theorem pdfText_foldl_eq (pages : List (Option (List Char))) :
    ∀ acc : List Char,
      pages.foldl (fun acc p => acc ++ p.getD [] ++ ['\n']) acc =
        acc ++ (pages.map (fun p => p.getD [] ++ ['\n'])).flatten := by
  induction pages with
  | nil => intro acc; simp
  | cons p ps ih =>
    intro acc
    simp only [List.foldl_cons, List.map_cons, List.flatten_cons, ih]
    simp [List.append_assoc]

/-- The PDF loop produces exactly the concatenation of the per-page texts,
each (with `none` replaced by the empty text) followed by one newline. -/
theorem pdfText_eq_flatten (pages : List (Option (List Char))) :
    pdfText pages = (pages.map (fun p => p.getD [] ++ ['\n'])).flatten := by
  simp only [pdfText]
  exact (pdfText_foldl_eq pages []).trans (by simp)

theorem count_pdfText (pages : List (Option (List Char))) :
    (pdfText pages).count '\n' =
      pages.length + ((pages.map (fun p => (p.getD []).count '\n')).sum) := by
  rw [pdfText_eq_flatten]
  induction pages with
  | nil => simp
  | cons p ps ih =>
    simp only [List.map_cons, List.flatten_cons, List.count_append, ih,
      List.length_cons, List.sum_cons]
    simp [List.count_singleton]
    omega

theorem not_txt_of_pdf {name : List Char}
    (h : ".pdf".data.isSuffixOf name = true) :
    ".txt".data.isSuffixOf name = false := by
  rw [List.isSuffixOf_iff_suffix] at h
  rw [Bool.eq_false_iff]
  intro ht
  rw [List.isSuffixOf_iff_suffix] at ht
  rcases List.suffix_or_suffix_of_suffix h ht with h1 | h1
  · exact absurd (h1.eq_of_length (by decide)) (by decide)
  · exact absurd (h1.eq_of_length (by decide)) (by decide)

/-! ### Claims -/

/-- C1, counterexample: the claim says a raised generative-API exception is
caught and turned into a returned `{"error": ...}` JSON string.  In the
source (app.py lines 83-99) there is no `try`/`except`: at the concrete
raised exception with message `boom`, `extract_structured_data`
propagates the exception (an `Except.error` result) instead of returning
any string. -/
theorem C1_counterexample :
    extract_structured_data (Except.error "boom".data) =
      Except.error "boom".data := rfl

/-- C1, amended: if the generative API call raises, the
structured-extraction function propagates that exception unchanged to its
caller; it does not return an error-payload JSON string. -/
theorem C1_amended_propagates (e : List Char) :
    extract_structured_data (Except.error e) = Except.error e := rfl

/-- C2: delivery is reported as success iff the HTTP status is exactly
200; any other status is reported as a failure carrying that status and
the response body verbatim; and a send action performs exactly one
webhook call (no retry). -/
theorem C2_success_iff_200 (resp : HttpResponse)
    (post : AlertContext → Except (List Char) HttpResponse)
    (q em : List Char) (sd r : Option (List Char)) :
    ((∃ d, send_to_n8n (Except.ok resp) = DeliveryOutcome.success d) ↔
        resp.status = 200) ∧
      (resp.status ≠ 200 →
        send_to_n8n (Except.ok resp) =
          DeliveryOutcome.httpFailure resp.status resp.text) ∧
      (pyStrip em ≠ [] → (sendClick post q sd r em).1 = [ExtCall.webhook]) := by
  refine ⟨⟨?_, ?_⟩, ?_, ?_⟩
  · rintro ⟨d, hd⟩
    by_contra hne
    rw [send_to_n8n] at hd
    simp only [if_neg hne] at hd
    cases hd
  · intro h200
    rw [send_to_n8n]
    rw [if_pos h200]
    cases hj : resp.jsonVal with
    | some j => exact ⟨Displayed.jsonView j, rfl⟩
    | none => exact ⟨Displayed.textView resp.text, rfl⟩
  · intro hne
    rw [send_to_n8n, if_neg hne]
  · intro hem
    rw [sendClick, if_neg hem]

/-- C2 witness: a 500 response with body `internal error` is reported as
an HTTP failure carrying 500 and the body, and is not a success. -/
theorem C2_witness :
    send_to_n8n (Except.ok ⟨500, "internal error".data, none⟩) =
      DeliveryOutcome.httpFailure 500 "internal error".data :=
  (C2_success_iff_200 ⟨500, "internal error".data, none⟩
    (fun _ => Except.error []) [] "a@b.c".data none none).2.1 (by decide)

/-- C3: the fence-stripping normalization (remove the three fence
patterns in order, then trim) is idempotent. -/
theorem C3_stripAndTrim_idem (s : List Char) :
    stripAndTrim (stripAndTrim s) = stripAndTrim s := by
  apply stripAndTrim_fixed (stripAndTrim_no_fence3 s)
  have : stripAndTrim s =
      pyStrip (pyReplace fence3 [] (pyReplace fenceJSON []
        (pyReplace fenceJson [] s))) := rfl
  rw [this, pyStrip_idem]

/-- C4: for a `.pdf` input, text acquisition returns the concatenation of
the per-page texts (empty text substituted for `none` pages) each
followed by a newline, so the result has one newline per page plus the
newlines inside the page texts; no failure result is produced. -/
theorem C4_pdf_concat
    (dec : List Nat → Except (List Char) (List Char))
    (pdfEx : List Nat → List (Option (List Char)))
    (f : UploadedFile) (hpdf : ".pdf".data.isSuffixOf f.name = true) :
    extract_text_from_file dec pdfEx f =
        Except.ok
          (((pdfEx f.content).map (fun p => p.getD [] ++ ['\n'])).flatten) ∧
      (pdfText (pdfEx f.content)).count '\n' =
        (pdfEx f.content).length +
          ((pdfEx f.content).map (fun p => (p.getD []).count '\n')).sum := by
  constructor
  · rw [extract_text_from_file, if_neg (by simp [not_txt_of_pdf hpdf]),
      if_pos hpdf, pdfText_eq_flatten]
  · exact count_pdfText _

/-- C4 witness: a two-page PDF where the second page yields no text still
produces two newline-terminated segments. -/
theorem C4_witness :
    extract_text_from_file (fun _ => Except.error [])
        (fun _ => [some "hi".data, none]) ⟨"doc.pdf".data, [1, 2]⟩ =
        Except.ok ("hi\n\n".data) ∧
      (pdfText [some "hi".data, none]).count '\n' = 2 := by
  have h := C4_pdf_concat (fun _ => Except.error [])
    (fun _ => [some "hi".data, none]) ⟨"doc.pdf".data, [1, 2]⟩ (by decide)
  exact ⟨h.1.trans rfl, h.2.trans rfl⟩

/-- C5: when the HTTP status is 200 but the response body does not parse
as JSON, delivery is still reported as success and the raw response text
is what gets displayed. -/
theorem C5_parse_failure_still_success (resp : HttpResponse)
    (h200 : resp.status = 200) (hjson : resp.jsonVal = none) :
    send_to_n8n (Except.ok resp) =
      DeliveryOutcome.success (Displayed.textView resp.text) := by
  rw [send_to_n8n, if_pos h200, hjson]

/-- C5 witness: a 200 response with non-JSON body `not json` is reported
as success, displaying the raw body. -/
theorem C5_witness :
    send_to_n8n (Except.ok ⟨200, "not json".data, none⟩) =
      DeliveryOutcome.success (Displayed.textView "not json".data) :=
  C5_parse_failure_still_success ⟨200, "not json".data, none⟩ rfl rfl

/-- C6: for a `.txt` file, text acquisition returns exactly the outcome
of UTF-8-decoding the full byte content: the decoded text on success
(identity), and the propagated decode error on failure — no fallback. -/
theorem C6_txt_decode (dec : List Nat → Except (List Char) (List Char))
    (pdfEx : List Nat → List (Option (List Char))) (f : UploadedFile)
    (htxt : ".txt".data.isSuffixOf f.name = true) :
    extract_text_from_file dec pdfEx f = dec f.content := by
  rw [extract_text_from_file, if_pos htxt]

/-- C6 witness: for `note.txt` whose bytes decode to `hi`, acquisition
returns exactly `hi`; for `bad.txt` whose bytes fail to decode, the
decode error propagates. -/
theorem C6_witness :
    extract_text_from_file (fun _ => Except.ok "hi".data) (fun _ => [])
        ⟨"note.txt".data, [104, 105]⟩ = Except.ok "hi".data ∧
      extract_text_from_file (fun _ => Except.error "invalid utf-8".data)
        (fun _ => []) ⟨"bad.txt".data, [255]⟩ =
        Except.error "invalid utf-8".data :=
  ⟨C6_txt_decode (fun _ => Except.ok "hi".data) (fun _ => [])
      ⟨"note.txt".data, [104, 105]⟩ (by decide),
    C6_txt_decode (fun _ => Except.error "invalid utf-8".data) (fun _ => [])
      ⟨"bad.txt".data, [255]⟩ (by decide)⟩

/-- C7: each missing required input (no uploaded file, whitespace-only
question, whitespace-only recipient email) is rejected with its explicit
message and an empty external-call trace: neither Gemini nor the webhook
is contacted. -/
theorem C7_gating
    (dec : List Nat → Except (List Char) (List Char))
    (pdfEx : List Nat → List (Option (List Char)))
    (api : List Char → List Char → Except (List Char) (Option (List Char)))
    (post : AlertContext → Except (List Char) HttpResponse)
    (q em sq : List Char) (ss sr : Option (List Char)) (f : UploadedFile) :
    (extractClick dec pdfEx api none q =
        ([], ExtractOutcome.rejected msgNoFile)) ∧
      (pyStrip q = [] →
        extractClick dec pdfEx api (some f) q =
          ([], ExtractOutcome.rejected msgNoQuestion)) ∧
      (pyStrip em = [] →
        sendClick post sq ss sr em = ([], SendOutcome.rejected msgNoEmail)) := by
  refine ⟨rfl, ?_, ?_⟩
  · intro hq
    rw [extractClick]
    rw [if_pos hq]
  · intro hem
    rw [sendClick, if_pos hem]

/-- C7 witness: with no file, with a whitespace-only question, and with an
empty recipient email, the actions are rejected and no external service
appears in the call trace. -/
theorem C7_witness :
    (extractClick (fun _ => Except.ok []) (fun _ => [])
        (fun _ _ => Except.error []) none "q".data =
        ([], ExtractOutcome.rejected msgNoFile)) ∧
      (extractClick (fun _ => Except.ok []) (fun _ => [])
        (fun _ _ => Except.error []) (some ⟨"a.txt".data, []⟩) "  ".data =
        ([], ExtractOutcome.rejected msgNoQuestion)) ∧
      (sendClick (fun _ => Except.error []) [] none none [] =
        ([], SendOutcome.rejected msgNoEmail)) := by
  have h := C7_gating (fun _ => Except.ok []) (fun _ => [])
    (fun _ _ => Except.error []) (fun _ => Except.error [])
    "  ".data [] [] none none ⟨"a.txt".data, []⟩
  exact ⟨C7_gating (fun _ => Except.ok []) (fun _ => [])
      (fun _ _ => Except.error []) (fun _ => Except.error [])
      "q".data [] [] none none ⟨"a.txt".data, []⟩ |>.1,
    h.2.1 (by decide), h.2.2 (by decide)⟩

/-- C8: a transport-level failure of the POST is caught (reported, not
propagated) as `transportFailure` with the exception message, a category
never equal to the report of any non-200 HTTP response. -/
theorem C8_transport_distinct (e : List Char) (resp : HttpResponse) :
    send_to_n8n (Except.error e) = DeliveryOutcome.transportFailure e ∧
      (resp.status ≠ 200 →
        send_to_n8n (Except.error e) ≠ send_to_n8n (Except.ok resp)) := by
  refine ⟨rfl, ?_⟩
  intro hne
  rw [send_to_n8n, send_to_n8n, if_neg hne]
  intro hcontra
  cases hcontra

/-- C8 witness: a timeout exception is reported as a transport failure,
distinct from the report of a 500 response. -/
theorem C8_witness :
    send_to_n8n (Except.error "timed out".data) =
        DeliveryOutcome.transportFailure "timed out".data ∧
      send_to_n8n (Except.error "timed out".data) ≠
        send_to_n8n (Except.ok ⟨500, "internal error".data, none⟩) :=
  ⟨(C8_transport_distinct "timed out".data
      ⟨500, "internal error".data, none⟩).1,
    (C8_transport_distinct "timed out".data
      ⟨500, "internal error".data, none⟩).2 (by decide)⟩

/-- C9: a file whose name ends in neither `.txt` nor `.pdf` yields
exactly the empty string, with no error. -/
theorem C9_other_ext_empty
    (dec : List Nat → Except (List Char) (List Char))
    (pdfEx : List Nat → List (Option (List Char))) (f : UploadedFile)
    (htxt : ".txt".data.isSuffixOf f.name = false)
    (hpdf : ".pdf".data.isSuffixOf f.name = false) :
    extract_text_from_file dec pdfEx f = Except.ok [] := by
  rw [extract_text_from_file, if_neg (by simp [htxt]), if_neg (by simp [hpdf])]

/-- C9 witness: a `.docx` file yields the empty string. -/
theorem C9_witness :
    extract_text_from_file (fun _ => Except.error [])
      (fun _ => [some "x".data]) ⟨"report.docx".data, [9]⟩ = Except.ok [] :=
  C9_other_ext_empty (fun _ => Except.error []) (fun _ => [some "x".data])
    ⟨"report.docx".data, [9]⟩ (by decide) (by decide)

/-- C10: when the generative call succeeds but `response.text` is `None`,
the function neither fails nor produces an error payload: it returns the
empty string, the same result as for a whitespace-only or fences-only
response text. -/
theorem C10_none_coalesced (w : List Char)
    (hw : ∀ c ∈ w, c.isWhitespace = true) :
    extract_structured_data (Except.ok none) = Except.ok [] ∧
      extract_structured_data (Except.ok (some w)) = Except.ok [] ∧
      extract_structured_data (Except.ok (some fence3)) = Except.ok [] := by
  have hnil : extract_structured_data (Except.ok (none : Option (List Char))) =
      Except.ok [] := by
    rw [extract_structured_data]
    rw [show ((none : Option (List Char)).getD [] : List Char) = [] from rfl,
      pyStrip_nil, stripAndTrim_nil]
  refine ⟨hnil, ?_, ?_⟩
  · rw [extract_structured_data]
    rw [show ((some w).getD [] : List Char) = w from rfl,
      pyStrip_of_all_whitespace hw, stripAndTrim_nil]
  · rw [extract_structured_data]
    rw [show ((some fence3).getD [] : List Char) = fence3 from rfl,
      show pyStrip fence3 = fence3 by decide, stripAndTrim_fence3]

/-- C10 witness: a `None` response text, a whitespace-only response text,
and a pure-fence response text all produce the empty string. -/
theorem C10_witness :
    extract_structured_data (Except.ok none) = Except.ok [] ∧
      extract_structured_data (Except.ok (some "  ".data)) = Except.ok [] ∧
      extract_structured_data (Except.ok (some fence3)) = Except.ok [] :=
  C10_none_coalesced "  ".data (by decide)

end DocOrch
